import Mathlib

/-!
Shallow embedding of the resilience-decorator core of `stability_patterns.go`
(the `Breaker`, `Debounce` and `Retry` decorators).

Modelling conventions:
* A Go `time.Time` / `time.Duration` is an `Int` counting nanoseconds.
  `time.Second` is `10^9` nanoseconds.  Real clock readings (`time.Now()`)
  are always strictly after the zero `time.Time`, which we place at `0`.
* A Go `error` is an `Option String` (`none` = `nil`, `some msg` = the
  error built by `errors.New msg`; the context error `ctx.Err()` is kept
  abstract as a string parameter).
* Each decorated call is a pure state-transition function.  The moments at
  which the Go code reads the clock are explicit arguments: `tGate` /
  `tStart` for the reading at the entry check and `tDone` / `tEnd` for the
  reading taken after the wrapped operation has completed.
* The outcome of the wrapped operation (`circuit ctx` / `effector ctx`), if
  it were invoked during this call, is passed in as data; the `invoked`
  flag of the result records whether the code actually invoked it.
* Go `int` and the `consecutiveFailures` counter are modelled as unbounded
  `Int`: the counter moves by at most one per call, so 64-bit overflow is
  unreachable.  Likewise the duration shift `time.Second * 2 << d` is
  modelled as the exact integer `2 * 10^9 * 2^d`; it agrees with the Go
  `int64` computation for every `d ≤ 32`, and larger `d` would require more
  than five centuries of accumulated backoff to reach.
-/

/-- Nanoseconds in one second (`time.Second`). -/
def nsPerSecond : Int := 1000000000

namespace Stability

/-- The private state captured by the closure that `Breaker` returns:
`var consecutiveFailures int = 0` and `var lastAttempt = time.Now()`. -/
structure BreakerState where
  consecutiveFailures : Int
  lastAttempt : Int
  deriving Repr, DecidableEq

/-- The state at construction time `t0`: zero failures and
`lastAttempt = time.Now()` (the construction instant). -/
def BreakerState.init (t0 : Int) : BreakerState :=
  { consecutiveFailures := 0, lastAttempt := t0 }

/-- The backoff duration `time.Second * 2 << d` (in nanoseconds) computed by
the breaker gate, for the branch where `d ≥ 0`. -/
def backoffNs (d : Int) : Int :=
  nsPerSecond * 2 * 2 ^ d.toNat

/-- Result of one invocation of a decorated operation: the new closure
state, the returned `(string, error)` pair, and whether the wrapped
operation was invoked during the call. -/
structure BreakerResult where
  state : BreakerState
  resp : String
  err : Option String
  invoked : Bool
  deriving Repr, DecidableEq

/-- One invocation of the closure returned by
`Breaker(circuit, failureThreshold)`.

`tGate` is the value of `time.Now()` at the gate check, `tDone` the value
written to `lastAttempt` after the wrapped call returned; `circuitResp` /
`circuitErr` is what `circuit(ctx)` returns if invoked.

The gate: `d := consecutiveFailures - int(failureThreshold)`; if `d >= 0`
and `!time.Now().After(lastAttempt.Add(time.Second * 2 << d))` the call
returns `("", errors.New("service unreachable"))` without touching the
state.  Otherwise `circuit` runs, `lastAttempt` is set to now, and
`consecutiveFailures` is incremented on error or reset to `0` on success;
the pair `(response, err)` is returned as produced. -/
def breakerCall (failureThreshold : Nat) (s : BreakerState)
    (tGate : Int) (circuitResp : String) (circuitErr : Option String)
    (tDone : Int) : BreakerResult :=
  let d : Int := s.consecutiveFailures - (failureThreshold : Int)
  if 0 ≤ d ∧ tGate ≤ s.lastAttempt + backoffNs d then
    { state := s, resp := "", err := some "service unreachable",
      invoked := false }
  else
    { state :=
        { consecutiveFailures :=
            if circuitErr.isSome then s.consecutiveFailures + 1 else 0,
          lastAttempt := tDone },
      resp := circuitResp, err := circuitErr, invoked := true }

/-- The private state captured by the closure that `Debounce` returns:
`var threshold time.Time`, `var result string`, `var err error`, each at
its Go zero value at construction. -/
structure DebounceState where
  threshold : Int
  result : String
  err : Option String
  deriving Repr, DecidableEq

/-- The zero-valued state at construction: the zero `time.Time` (modelled
as instant `0`), the empty string and the `nil` error. -/
def DebounceState.init : DebounceState :=
  { threshold := 0, result := "", err := none }

/-- Result of one invocation of the closure `Debounce` returns. -/
structure DebounceResult where
  state : DebounceState
  resp : String
  err : Option String
  invoked : Bool
  deriving Repr, DecidableEq

/-- One invocation of the closure returned by `Debounce(circuit, duration)`.

`tStart` is the value of `time.Now()` at the `Before(threshold)` check and
`tEnd` the value read by the deferred closure that runs when the call
returns; `circuitResp` / `circuitErr` is what `circuit(ctx)` returns if
invoked.

If `time.Now().Before(threshold)` the call returns the cached
`(result, err)` pair without invoking `circuit`.  Otherwise it runs
`result, err = circuit(ctx)` and returns `(result, nil)`.  On both paths
the deferred closure then sets `threshold = time.Now().Add(duration)`. -/
def debounceCall (duration : Int) (s : DebounceState)
    (tStart : Int) (circuitResp : String) (circuitErr : Option String)
    (tEnd : Int) : DebounceResult :=
  if tStart < s.threshold then
    { state := { s with threshold := tEnd + duration },
      resp := s.result, err := s.err, invoked := false }
  else
    { state := { threshold := tEnd + duration, result := circuitResp,
                 err := circuitErr },
      resp := circuitResp, err := none, invoked := true }

/-- One external call to a debounced operation, as data: the two clock
readings of the call and the outcome `circuit(ctx)` would produce. -/
structure DebCall where
  tStart : Int
  tEnd : Int
  resp : String
  err : Option String
  deriving Repr, DecidableEq

/-- Run a sequence of calls through a debounced operation, threading the
closure state and counting how many of them invoked the wrapped
operation. -/
def debounceRun (duration : Int) : DebounceState → List DebCall →
    DebounceState × Nat
  | s, [] => (s, 0)
  | s, c :: cs =>
    let r := debounceCall duration s c.tStart c.resp c.err c.tEnd
    let p := debounceRun duration r.state cs
    (p.1, (if r.invoked then 1 else 0) + p.2)

/-- The body of the loop in the closure returned by
`Retry(effector, retries, delay)`, starting at loop counter `r`.

`effector i` is the `(string, error)` pair the `i`-th invocation of
`effector(ctx)` returns; `cancelled i` tells whether `ctx.Done()` fires
before the `time.After(delay)` timer during the wait that follows a failed
attempt `i`; `ctxErr` is the message of `ctx.Err()`.

Each iteration invokes the effector; on `err == nil || r >= retries` it
returns `(resp, nil)`; otherwise it waits, aborting with
`("", ctx.Err())` if the context is cancelled first.  The triple returned
is the `(string, error)` result together with the total number of
effector invocations made (the final loop counter plus one). -/
def retryLoop (effector : Nat → String × Option String)
    (cancelled : Nat → Bool) (ctxErr : String) (retries : Int) :
    Nat → String × Option String × Nat
  | r =>
    if (effector r).2 = none ∨ retries ≤ (r : Int) then
      ((effector r).1, none, r + 1)
    else if cancelled r then ("", some ctxErr, r + 1)
    else retryLoop effector cancelled ctxErr retries (r + 1)
  termination_by r => (retries + 1 - r).toNat
  decreasing_by
    simp only [not_or, not_le] at *
    omega

/-- One invocation of the closure returned by `Retry`: the loop from
`r = 0`. -/
def retryCall (effector : Nat → String × Option String)
    (cancelled : Nat → Bool) (ctxErr : String) (retries : Int) :
    String × Option String × Nat :=
  retryLoop effector cancelled ctxErr retries 0

/-! ### Helper lemmas about the breaker gate -/

/-- For a natural shift amount `k`, the Go duration `time.Second * 2 << k`
is `2 ^ (k + 1)` seconds. -/
theorem backoffNs_natCast (k : Nat) :
    backoffNs (k : Int) = nsPerSecond * 2 ^ (k + 1) := by
  simp [backoffNs, pow_succ]
  ring

/-- The breaker gate backoff, written with the exponent `d.toNat + 1`. -/
theorem backoffNs_eq_pow (d : Int) :
    backoffNs d = nsPerSecond * 2 ^ (d.toNat + 1) := by
  simp [backoffNs, pow_succ]
  ring

/-! ### Claim theorems about the breaker -/

/-- Claim C1: for every invocation of a Breaker-decorated operation, with
`d = consecutiveFailures - failureThreshold` at entry, if `d ≥ 0` and the
current time has not passed `lastAttempt + 2^(d+1)` seconds, the call
fails immediately with a "service unreachable" error, without invoking the
wrapped operation and without mutating the state; otherwise the wrapped
operation is invoked. -/
theorem breaker_gate_c1 (t : Nat) (s : BreakerState) (tGate : Int)
    (resp : String) (cerr : Option String) (tDone : Int) :
    (0 ≤ s.consecutiveFailures - (t : Int) ∧
        tGate ≤ s.lastAttempt +
          nsPerSecond * 2 ^ ((s.consecutiveFailures - (t : Int)).toNat + 1) →
      breakerCall t s tGate resp cerr tDone =
        { state := s, resp := "", err := some "service unreachable",
          invoked := false }) ∧
    (¬ (0 ≤ s.consecutiveFailures - (t : Int) ∧
        tGate ≤ s.lastAttempt +
          nsPerSecond * 2 ^ ((s.consecutiveFailures - (t : Int)).toNat + 1)) →
      (breakerCall t s tGate resp cerr tDone).invoked = true) := by
  constructor
  · intro h
    simp only [breakerCall, backoffNs_eq_pow]
    rw [if_pos h]
  · intro h
    simp only [breakerCall, backoffNs_eq_pow]
    rw [if_neg h]

/-- Concrete instance of the two branches of `breaker_gate_c1`. -/
theorem breaker_gate_c1_witness :
    breakerCall 1 ⟨1, 0⟩ 10 "r" none 10 =
      { state := ⟨1, 0⟩, resp := "", err := some "service unreachable",
        invoked := false } ∧
    (breakerCall 1 ⟨1, 0⟩ 5000000000 "r" none 5000000000).invoked = true :=
  ⟨(breaker_gate_c1 1 ⟨1, 0⟩ 10 "r" none 10).1 (by decide),
   (breaker_gate_c1 1 ⟨1, 0⟩ 5000000000 "r" none 5000000000).2 (by decide)⟩

/-- Claim C2: with `failureThreshold = t` and `t + 1` consecutive failures
on record, the next call is rejected immediately with the
"service unreachable" error, without invoking the wrapped operation, as
long as the backoff interval has not elapsed, and is let through once it
has; moreover, with `k` consecutive failures beyond the threshold
(`k = 0, 1, 2`), the gate backoff interval is exactly `2^(k+1)` seconds
past `lastAttempt`. -/
theorem breaker_trip_c2 (t : Nat) (L tGate : Int) (resp : String)
    (cerr : Option String) (tDone : Int) :
    (tGate ≤ L + nsPerSecond * 2 ^ 2 →
      breakerCall t ⟨(t : Int) + 1, L⟩ tGate resp cerr tDone =
        { state := ⟨(t : Int) + 1, L⟩, resp := "",
          err := some "service unreachable", invoked := false }) ∧
    (L + nsPerSecond * 2 ^ 2 < tGate →
      (breakerCall t ⟨(t : Int) + 1, L⟩ tGate resp cerr tDone).invoked =
        true) ∧
    ∀ k : Nat, k ≤ 2 →
      ((breakerCall t ⟨(t : Int) + (k : Int), L⟩ tGate resp cerr
          tDone).invoked = false ↔
        tGate ≤ L + nsPerSecond * 2 ^ (k + 1)) := by
  have hd1 : ((t : Int) + 1 - (t : Int)) = ((1 : Nat) : Int) := by
    push_cast
    ring
  refine ⟨?_, ?_, ?_⟩
  · intro h
    simp only [breakerCall, hd1, backoffNs_natCast]
    rw [if_pos ⟨by norm_num, by norm_num; exact h⟩]
  · intro h
    simp only [breakerCall, hd1, backoffNs_natCast]
    rw [if_neg]
    intro hc
    have := hc.2
    norm_num at this
    omega
  · intro k hk
    have hd2 : ((t : Int) + (k : Int) - (t : Int)) = (k : Int) := by ring
    simp only [breakerCall, hd2, backoffNs_natCast, Int.natCast_nonneg,
      true_and]
    split
    next hc => simp [hc]
    next hc => simp [hc]

/-- Concrete instance of the three parts of `breaker_trip_c2`. -/
theorem breaker_trip_c2_witness :
    breakerCall 0 ⟨1, 0⟩ 3000000000 "r" none 7 =
      { state := ⟨1, 0⟩, resp := "", err := some "service unreachable",
        invoked := false } ∧
    (breakerCall 0 ⟨1, 0⟩ 5000000000 "r" none 7).invoked = true ∧
    ((breakerCall 0 ⟨2, 0⟩ 3000000000 "r" none 7).invoked = false ↔
      (3000000000 : Int) ≤ 0 + nsPerSecond * 2 ^ 3) :=
  ⟨(breaker_trip_c2 0 0 3000000000 "r" none 7).1 (by decide),
   (breaker_trip_c2 0 0 5000000000 "r" none 7).2.1 (by decide),
   (breaker_trip_c2 0 0 3000000000 "r" none 7).2.2 2 (by decide)⟩

/-- Claim C3: the breaker counter resets to `0` exactly when an invocation
of the wrapped operation succeeds, increments by exactly one on each
failed invocation, is untouched when the gate rejects, and while the
counter is below the threshold every call reaches the wrapped operation
(so after a reset a new trip needs the full threshold count again). -/
theorem breaker_counter_c3 (t : Nat) (s : BreakerState) (tGate : Int)
    (resp : String) (cerr : Option String) (tDone : Int) :
    ((breakerCall t s tGate resp cerr tDone).invoked = true → cerr = none →
      (breakerCall t s tGate resp cerr tDone).state.consecutiveFailures =
        0) ∧
    ((breakerCall t s tGate resp cerr tDone).invoked = true → cerr ≠ none →
      (breakerCall t s tGate resp cerr tDone).state.consecutiveFailures =
        s.consecutiveFailures + 1) ∧
    ((breakerCall t s tGate resp cerr tDone).invoked = false →
      (breakerCall t s tGate resp cerr tDone).state = s) ∧
    (s.consecutiveFailures < (t : Int) →
      (breakerCall t s tGate resp cerr tDone).invoked = true) := by
  by_cases hcond : 0 ≤ s.consecutiveFailures - (t : Int) ∧
      tGate ≤ s.lastAttempt + backoffNs (s.consecutiveFailures - (t : Int))
  · simp only [breakerCall, if_pos hcond]
    refine ⟨by simp, by simp, by simp, fun hlt => ?_⟩
    have := hcond.1
    omega
  · simp only [breakerCall, if_neg hcond]
    refine ⟨fun _ hnone => ?_, fun _ hsome => ?_, by simp, by simp⟩
    · simp [hnone]
    · simp [Option.isSome_iff_ne_none.mpr hsome]

/-- Concrete instance of the four parts of `breaker_counter_c3`. -/
theorem breaker_counter_c3_witness :
    (breakerCall 2 ⟨1, 0⟩ 5 "r" none 7).state.consecutiveFailures = 0 ∧
    (breakerCall 2 ⟨1, 0⟩ 5 "r" (some "boom") 7).state.consecutiveFailures =
      1 + 1 ∧
    (breakerCall 2 ⟨5, 0⟩ 1 "r" none 7).state = ⟨5, 0⟩ ∧
    (breakerCall 2 ⟨1, 0⟩ 5 "r" none 7).invoked = true :=
  ⟨(breaker_counter_c3 2 ⟨1, 0⟩ 5 "r" none 7).1 (by decide) rfl,
   (breaker_counter_c3 2 ⟨1, 0⟩ 5 "r" (some "boom") 7).2.1 (by decide)
     (by simp),
   (breaker_counter_c3 2 ⟨5, 0⟩ 1 "r" none 7).2.2.1 (by decide),
   (breaker_counter_c3 2 ⟨1, 0⟩ 5 "r" none 7).2.2.2 (by decide)⟩

/-- Claim C9: the breaker gate is active already at
`consecutiveFailures = failureThreshold` (that is, at `d = 0`), and since
`lastAttempt` starts at the construction time, a breaker built with
`failureThreshold = 0` rejects every call made less than two seconds after
construction with the "service unreachable" error although no invocation
ever failed (the initial state records zero failures). -/
theorem breaker_zero_threshold_c9 (t : Nat) (L tGate : Int) (resp : String)
    (cerr : Option String) (tDone : Int) (t0 tGate2 : Int) (resp2 : String)
    (cerr2 : Option String) (tDone2 : Int) :
    ((breakerCall t ⟨(t : Int), L⟩ tGate resp cerr tDone).invoked = false ↔
      tGate ≤ L + 2 * nsPerSecond) ∧
    (BreakerState.init t0).consecutiveFailures = 0 ∧
    (tGate2 < t0 + 2 * nsPerSecond →
      breakerCall 0 (BreakerState.init t0) tGate2 resp2 cerr2 tDone2 =
        { state := BreakerState.init t0, resp := "",
          err := some "service unreachable", invoked := false }) := by
  have hb : backoffNs 0 = 2 * nsPerSecond := by
    simp [backoffNs]
    ring
  refine ⟨?_, rfl, ?_⟩
  · have hd : ((t : Int) - (t : Int)) = 0 := by ring
    simp only [breakerCall, hd, hb, le_refl, true_and]
    split
    next hc => simp [hc]
    next hc => simp [hc]
  · intro h
    have hd : ((0 : Int) - ((0 : Nat) : Int)) = 0 := by norm_num
    simp only [breakerCall, BreakerState.init, hd, hb, le_refl, true_and]
    rw [if_pos (le_of_lt h)]

/-- Concrete instance of the two parts of `breaker_zero_threshold_c9`. -/
theorem breaker_zero_threshold_c9_witness :
    ((breakerCall 1 ⟨1, 0⟩ 1000000000 "r" none 7).invoked = false ↔
      (1000000000 : Int) ≤ 0 + 2 * nsPerSecond) ∧
    breakerCall 0 (BreakerState.init 100) 150 "r" none 7 =
      { state := BreakerState.init 100, resp := "",
        err := some "service unreachable", invoked := false } :=
  ⟨(breaker_zero_threshold_c9 1 0 1000000000 "r" none 7 100 150 "r" none
      7).1,
   (breaker_zero_threshold_c9 1 0 1000000000 "r" none 7 100 150 "r" none
      7).2.2 (by decide)⟩

/-! ### Claim theorems about debounce -/

/-- Claim C5: a call to a debounced operation arriving strictly before
`threshold` replays the cached `(result, error)` pair unchanged without
invoking the wrapped operation; two calls within `duration` of each other
invoke the wrapped operation exactly once, and a call arriving once
`duration` has elapsed since the completion of the first call invokes it
again. -/
theorem debounce_window_c5 (duration : Int) (s : DebounceState)
    (tStart : Int) (resp : String) (cerr : Option String) (tEnd : Int)
    (t1 e1 t2 e2 : Int) (r1 r2 : String) (c1 c2 : Option String) :
    (tStart < s.threshold →
      (debounceCall duration s tStart resp cerr tEnd).resp = s.result ∧
      (debounceCall duration s tStart resp cerr tEnd).err = s.err ∧
      (debounceCall duration s tStart resp cerr tEnd).invoked = false) ∧
    (0 ≤ t1 → t1 ≤ e1 → t2 < t1 + duration →
      (debounceRun duration DebounceState.init
        [⟨t1, e1, r1, c1⟩, ⟨t2, e2, r2, c2⟩]).2 = 1) ∧
    (0 ≤ t1 → e1 + duration ≤ t2 →
      (debounceRun duration DebounceState.init
        [⟨t1, e1, r1, c1⟩, ⟨t2, e2, r2, c2⟩]).2 = 2) := by
  refine ⟨?_, ?_, ?_⟩
  · intro h
    simp [debounceCall, if_pos h]
  · intro h0 hle hwin
    have h1 : ¬ (t1 < DebounceState.init.threshold) := by
      simp only [DebounceState.init]
      omega
    have h2 : t2 < e1 + duration := by omega
    simp only [debounceRun, debounceCall, if_neg h1, if_pos h2]
    simp
  · intro h0 hgap
    have h1 : ¬ (t1 < DebounceState.init.threshold) := by
      simp only [DebounceState.init]
      omega
    have h2 : ¬ (t2 < e1 + duration) := by omega
    simp only [debounceRun, debounceCall, if_neg h1, if_neg h2]
    simp

/-- Concrete instance of the three parts of `debounce_window_c5`. -/
theorem debounce_window_c5_witness :
    ((debounceCall 10 ⟨16, "A", some "e"⟩ 12 "B" none 13).resp = "A" ∧
      (debounceCall 10 ⟨16, "A", some "e"⟩ 12 "B" none 13).err = some "e" ∧
      (debounceCall 10 ⟨16, "A", some "e"⟩ 12 "B" none 13).invoked =
        false) ∧
    (debounceRun 10 DebounceState.init
      [⟨5, 6, "A", none⟩, ⟨10, 11, "B", none⟩]).2 = 1 ∧
    (debounceRun 10 DebounceState.init
      [⟨5, 6, "A", none⟩, ⟨16, 17, "B", none⟩]).2 = 2 :=
  ⟨(debounce_window_c5 10 ⟨16, "A", some "e"⟩ 12 "B" none 13 5 6 10 11 "A"
      "B" none none).1 (by decide),
   (debounce_window_c5 10 ⟨16, "A", some "e"⟩ 12 "B" none 13 5 6 10 11 "A"
      "B" none none).2.1 (by decide) (by decide) (by decide),
   (debounce_window_c5 10 ⟨16, "A", some "e"⟩ 12 "B" none 13 5 6 16 17 "A"
      "B" none none).2.2 (by decide) (by decide)⟩

/-- Once the state records a threshold one `duration` past the previous
completion, a chain of calls each arriving before the previous completion
plus `duration` is served entirely from the cache. -/
theorem debounceRun_cached_of_chain (duration : Int) :
    ∀ (cs : List DebCall) (prev : DebCall) (s : DebounceState),
      s.threshold = prev.tEnd + duration →
      List.Chain' (fun a b => b.tStart < a.tEnd + duration) (prev :: cs) →
      (debounceRun duration s cs).2 = 0
  | [], _, _, _, _ => rfl
  | c :: cs, prev, s, hth, hch => by
    rw [List.chain'_cons] at hch
    have hc : c.tStart < s.threshold := by
      rw [hth]
      exact hch.1
    simp only [debounceRun, debounceCall, if_pos hc]
    simpa using debounceRun_cached_of_chain duration cs c _ rfl hch.2

/-- Claim C10: every call to a debounced operation, cached or not, sets
`threshold` to its completion time plus `duration`; consequently a
sequence of calls in which each call arrives within `duration` of the
previous completion invokes the wrapped operation exactly once, the first
call, and postpones re-invocation indefinitely. -/
theorem debounce_anchor_c10 (duration : Int) (s : DebounceState)
    (tStart : Int) (resp : String) (cerr : Option String) (tEnd : Int)
    (c : DebCall) (cs : List DebCall) :
    ((debounceCall duration s tStart resp cerr tEnd).state.threshold =
      tEnd + duration) ∧
    (0 ≤ c.tStart →
      List.Chain' (fun a b => b.tStart < a.tEnd + duration) (c :: cs) →
      (debounceRun duration DebounceState.init (c :: cs)).2 = 1) := by
  constructor
  · simp only [debounceCall]
    split
    · rfl
    · rfl
  · intro h0 hch
    have h1 : ¬ (c.tStart < DebounceState.init.threshold) := by
      simp only [DebounceState.init]
      omega
    simp only [debounceRun, debounceCall, if_neg h1]
    simpa using debounceRun_cached_of_chain duration cs c _ rfl hch

/-- Concrete instance of the two parts of `debounce_anchor_c10`: three
calls, each within `duration = 10` of the previous completion, invoke the
wrapped operation once. -/
theorem debounce_anchor_c10_witness :
    (debounceCall 10 ⟨16, "A", some "e"⟩ 12 "B" none 13).state.threshold =
      13 + 10 ∧
    (debounceRun 10 DebounceState.init
      [⟨5, 6, "A", none⟩, ⟨10, 11, "B", none⟩, ⟨15, 16, "C", none⟩]).2 =
      1 :=
  ⟨(debounce_anchor_c10 10 ⟨16, "A", some "e"⟩ 12 "B" none 13
      ⟨5, 6, "A", none⟩ [⟨10, 11, "B", none⟩, ⟨15, 16, "C", none⟩]).1,
   (debounce_anchor_c10 10 ⟨16, "A", some "e"⟩ 12 "B" none 13
      ⟨5, 6, "A", none⟩ [⟨10, 11, "B", none⟩, ⟨15, 16, "C", none⟩]).2
     (by decide) (by norm_num [List.chain'_cons])⟩

/-- Claim C6 fails on the code: after a fresh call that failed with
`"boom"` populated the cache, the cache path replays the cached error
`some "boom"`, not a nil error, together with the cached result. -/
theorem debounce_cache_error_c6_counterexample :
    (debounceCall 10
      (debounceCall 10 DebounceState.init 5 "A" (some "boom") 6).state
      12 "B" none 13).invoked = false ∧
    (debounceCall 10
      (debounceCall 10 DebounceState.init 5 "A" (some "boom") 6).state
      12 "B" none 13).err = some "boom" :=
  ⟨rfl, rfl⟩

/-- Claim C6, amended: on the debounce cache path the cached result is
replayed together with the cached error from the call that produced the
entry, verbatim; the nil error is instead returned on the fresh path,
where the error of the wrapped call is only stored into the cache. -/
theorem debounce_cache_error_c6 (duration : Int) (s : DebounceState)
    (tStart : Int) (resp : String) (cerr : Option String) (tEnd : Int) :
    (tStart < s.threshold →
      debounceCall duration s tStart resp cerr tEnd =
        { state := { s with threshold := tEnd + duration },
          resp := s.result, err := s.err, invoked := false }) ∧
    (s.threshold ≤ tStart →
      (debounceCall duration s tStart resp cerr tEnd).err = none ∧
      (debounceCall duration s tStart resp cerr tEnd).state.err = cerr) := by
  constructor
  · intro h
    simp only [debounceCall, if_pos h]
  · intro h
    simp [debounceCall, if_neg (not_lt.mpr h)]

/-- Concrete instance of the two parts of `debounce_cache_error_c6`. -/
theorem debounce_cache_error_c6_witness :
    debounceCall 10 ⟨16, "A", some "boom"⟩ 12 "B" none 13 =
      { state := ⟨13 + 10, "A", some "boom"⟩, resp := "A",
        err := some "boom", invoked := false } ∧
    ((debounceCall 10 ⟨16, "A", some "boom"⟩ 20 "B" (some "bad") 21).err =
      none ∧
     (debounceCall 10 ⟨16, "A", some "boom"⟩ 20 "B"
        (some "bad") 21).state.err = some "bad") :=
  ⟨(debounce_cache_error_c6 10 ⟨16, "A", some "boom"⟩ 12 "B" none 13).1
     (by decide),
   (debounce_cache_error_c6 10 ⟨16, "A", some "boom"⟩ 20 "B" (some "bad")
      21).2 (by decide)⟩

/-- Claim C7 fails on the code for debounce: a fresh debounced call whose
wrapped operation fails with `"boom"` is invoked, yet the caller receives
a nil error instead of the wrapped error. -/
theorem error_verbatim_c7_counterexample :
    (debounceCall 10 DebounceState.init 5 "A" (some "boom") 6).invoked =
      true ∧
    (debounceCall 10 DebounceState.init 5 "A" (some "boom") 6).err =
      none :=
  ⟨rfl, rfl⟩

/-- Claim C7, amended: when a Breaker-decorated call invokes the wrapped
operation, the wrapped error is returned verbatim; when a
Debounce-decorated call invokes the wrapped operation, a nil error is
returned regardless of the wrapped error, which is only stored in the
cache. -/
theorem error_verbatim_c7 (t : Nat) (s : BreakerState) (tGate : Int)
    (resp : String) (cerr : Option String) (tDone : Int) (duration : Int)
    (s2 : DebounceState) (tStart : Int) (resp2 : String)
    (cerr2 : Option String) (tEnd : Int) :
    ((breakerCall t s tGate resp cerr tDone).invoked = true →
      (breakerCall t s tGate resp cerr tDone).err = cerr ∧
      (breakerCall t s tGate resp cerr tDone).resp = resp) ∧
    ((debounceCall duration s2 tStart resp2 cerr2 tEnd).invoked = true →
      (debounceCall duration s2 tStart resp2 cerr2 tEnd).err = none) := by
  constructor
  · intro hinv
    by_cases hcond : (t : Int) ≤ s.consecutiveFailures ∧
        tGate ≤ s.lastAttempt + backoffNs (s.consecutiveFailures - (t : Int))
    · exfalso
      simp [breakerCall, hcond] at hinv
    · simp [breakerCall, hcond]
  · intro hinv
    by_cases hc2 : tStart < s2.threshold
    · exfalso
      simp [debounceCall, hc2] at hinv
    · simp [debounceCall, hc2]

/-- Concrete instance of the two parts of `error_verbatim_c7`. -/
theorem error_verbatim_c7_witness :
    ((breakerCall 2 ⟨1, 0⟩ 5 "r" (some "boom") 7).err = some "boom" ∧
      (breakerCall 2 ⟨1, 0⟩ 5 "r" (some "boom") 7).resp = "r") ∧
    (debounceCall 10 DebounceState.init 7 "A" (some "bad") 8).err = none :=
  ⟨(error_verbatim_c7 2 ⟨1, 0⟩ 5 "r" (some "boom") 7 10 DebounceState.init
      7 "A" (some "bad") 8).1 (by decide),
   (error_verbatim_c7 2 ⟨1, 0⟩ 5 "r" (some "boom") 7 10 DebounceState.init
      7 "A" (some "bad") 8).2 (by decide)⟩

/-! ### Helper lemmas about retry -/

/-- When every attempt fails and the context is never cancelled, the loop
started at `r` with `k` more retries allowed runs all the way to attempt
`r + k` and returns its result with a nil error. -/
theorem retryLoop_allFail (effector : Nat → String × Option String)
    (ctxErr : String) :
    ∀ (k r : Nat), (∀ i, (effector i).2 ≠ none) →
      retryLoop effector (fun _ => false) ctxErr ((r + k : Nat) : Int) r =
        ((effector (r + k)).1, none, r + k + 1)
  | 0, r, h => by
    rw [retryLoop]
    simp
  | k + 1, r, h => by
    have h1 : ¬ ((effector r).2 = none ∨
        ((r + (k + 1) : Nat) : Int) ≤ (r : Int)) := by
      push_neg
      refine ⟨h r, ?_⟩
      push_cast
      omega
    rw [retryLoop, if_neg h1, if_neg (by simp)]
    have hidx : r + (k + 1) = (r + 1) + k := by omega
    rw [hidx]
    exact retryLoop_allFail effector ctxErr k (r + 1) h

/-- Whatever the effector and the cancellation pattern do, the loop
started at `r` makes at most `k + 1` further invocations when the budget
is at most `r + k`. -/
theorem retryLoop_count_le (eff : Nat → String × Option String)
    (canc : Nat → Bool) (ctxErr : String) :
    ∀ (k r : Nat) (retries : Int), retries ≤ ((r + k : Nat) : Int) →
      (retryLoop eff canc ctxErr retries r).2.2 ≤ r + k + 1
  | 0, r, retries, h => by
    rw [retryLoop, if_pos (Or.inr (by simpa using h))]
  | k + 1, r, retries, h => by
    rw [retryLoop]
    split
    · show r + 1 ≤ r + (k + 1) + 1
      omega
    · split
      · show r + 1 ≤ r + (k + 1) + 1
        omega
      · have hle : retries ≤ (((r + 1) + k : Nat) : Int) := by
          push_cast at *
          omega
        have ih := retryLoop_count_le eff canc ctxErr k (r + 1) retries hle
        omega

/-- When attempts `r0` through `r0 + j` fail, no wait before attempt
`r0 + j` is cancelled, budget remains at attempt `r0 + j`, and the wait
after attempt `r0 + j` is cancelled, the loop aborts there with the
context error and the empty result. -/
theorem retryLoop_cancelled_run (eff : Nat → String × Option String)
    (canc : Nat → Bool) (ctxErr : String) (retries : Int) :
    ∀ (j r0 : Nat), ((r0 + j : Nat) : Int) < retries →
      (∀ i, r0 ≤ i → i ≤ r0 + j → (eff i).2 ≠ none) →
      (∀ i, r0 ≤ i → i < r0 + j → canc i = false) →
      canc (r0 + j) = true →
      retryLoop eff canc ctxErr retries r0 = ("", some ctxErr, r0 + j + 1)
  | 0, r0, hlt, hfail, hbefore, hcanc => by
    have h1 : ¬ ((eff r0).2 = none ∨ retries ≤ (r0 : Int)) := by
      push_neg
      refine ⟨hfail r0 le_rfl (by omega), ?_⟩
      push_cast at hlt
      omega
    rw [retryLoop, if_neg h1, if_pos (by simpa using hcanc)]
  | j + 1, r0, hlt, hfail, hbefore, hcanc => by
    have h1 : ¬ ((eff r0).2 = none ∨ retries ≤ (r0 : Int)) := by
      push_neg
      refine ⟨hfail r0 le_rfl (by omega), ?_⟩
      push_cast at hlt
      omega
    have h2 : canc r0 = false := hbefore r0 le_rfl (by omega)
    rw [retryLoop, if_neg h1, if_neg (by simp [h2])]
    have hidx : r0 + (j + 1) = (r0 + 1) + j := by omega
    rw [hidx] at hlt hcanc ⊢
    exact retryLoop_cancelled_run eff canc ctxErr retries j (r0 + 1) hlt
      (fun i h1i h2i => hfail i (by omega) (by omega))
      (fun i h1i h2i => hbefore i (by omega) (by omega))
      hcanc

/-! ### Claim theorems about retry -/

/-- Claim C4: with a non-negative retry budget `m`, an effector that
always fails and a context that is never cancelled, the decorated call
invokes the effector exactly `m + 1` times and returns the last result
with a nil error, never surfacing the final failure; and for any effector
and cancellation pattern the number of invocations is bounded by
`m + 1`. -/
theorem retry_budget_c4 (m : Nat) (effector : Nat → String × Option String)
    (ctxErr : String) (hfail : ∀ i, (effector i).2 ≠ none) :
    retryCall effector (fun _ => false) ctxErr (m : Int) =
      ((effector m).1, none, m + 1) ∧
    ∀ (eff2 : Nat → String × Option String) (canc : Nat → Bool)
      (e2 : String),
      (retryCall eff2 canc e2 (m : Int)).2.2 ≤ m + 1 := by
  constructor
  · have h := retryLoop_allFail effector ctxErr m 0 hfail
    simpa [retryCall] using h
  · intro eff2 canc e2
    have h := retryLoop_count_le eff2 canc e2 m 0 (m : Int) (by simp)
    simpa [retryCall] using h

/-- Concrete instance of the two parts of `retry_budget_c4` with
`maxRetries = 3`: four invocations in total. -/
theorem retry_budget_c4_witness :
    retryCall (fun _ => ("r", some "boom")) (fun _ => false) "ctx"
      (3 : Int) = ("r", none, 4) ∧
    (retryCall (fun _ => ("ok", none)) (fun _ => false) "x"
      (3 : Int)).2.2 ≤ 4 :=
  ⟨by
    simpa using
      (retry_budget_c4 3 (fun _ => ("r", some "boom")) "ctx"
        (fun i => by simp)).1,
   by
    simpa using
      (retry_budget_c4 3 (fun _ => ("r", some "boom")) "ctx"
        (fun i => by simp)).2 (fun _ => ("ok", none)) (fun _ => false) "x"⟩

/-- Claim C8: when the governing context is cancelled during the
inter-attempt delay that follows failed attempt `r` (with budget left and
no earlier cancellation), the decorated call makes no further attempts:
it returns the context cancellation error with the empty result after
exactly `r + 1` invocations. -/
theorem retry_cancel_c8 (m r : Nat)
    (effector : Nat → String × Option String) (canc : Nat → Bool)
    (ctxErr : String) (hr : (r : Int) < (m : Int))
    (hfail : ∀ i, i ≤ r → (effector i).2 ≠ none)
    (hbefore : ∀ i, i < r → canc i = false)
    (hcanc : canc r = true) :
    retryCall effector canc ctxErr (m : Int) =
      ("", some ctxErr, r + 1) := by
  have h := retryLoop_cancelled_run effector canc ctxErr (m : Int) r 0
    (by simpa using hr)
    (fun i h1i h2i => hfail i (by omega))
    (fun i h1i h2i => hbefore i (by omega))
    (by simpa using hcanc)
  simpa [retryCall] using h

/-- Concrete instance of `retry_cancel_c8`: cancellation during the delay
after the second attempt stops the call with two invocations made. -/
theorem retry_cancel_c8_witness :
    retryCall (fun _ => ("r", some "boom")) (fun i => decide (i = 1))
      "context canceled" (3 : Int) = ("", some "context canceled", 2) := by
  simpa using
    retry_cancel_c8 3 1 (fun _ => ("r", some "boom"))
      (fun i => decide (i = 1)) "context canceled" (by norm_num)
      (fun i _ => by simp)
      (fun i hi => by
        simp only [decide_eq_false_iff_not]
        omega)
      (by simp)

end Stability
